import Mathlib

/-!
Shallow embedding of the cursor-tracked incremental aggregation engine of
`summariser/app/summarizer.py` (the change-feed consumption and per-sensor
summarization loop), together with proofs about its behaviour.

Modelling conventions:
* Python values that may appear in a document's `temperature` field are an
  inductive `PyVal`; Python floats are modelled as exact rationals, and
  `round(x, 2)` as decimal round-half-to-even on rationals.
* The Cosmos change feed is modelled as an append-only list of readings; a
  continuation token is an opaque marker for a position in that list, so it
  is modelled as a `Nat` index (tokens produced by the service are nonempty
  strings, hence Python-truthy, which is why `Option Nat` with `some`
  standing for a truthy token is faithful to `if continuation:`).
* Exceptions are modelled with `Except Unit`; a per-key failure oracle says
  whether `summarise_sensor` raises for that key during the cycle
  (aggregation query or sink upsert failure).
* `uuid.uuid4()` and `datetime.now` are modelled as explicit inputs: a fresh
  id supply and the current wall-clock time are passed into each cycle.
-/

set_option autoImplicit false

namespace Summarizer

/-- A Python value that can sit in a document's `temperature` field. -/
inductive PyVal where
  | none
  | bool (b : Bool)
  | int (n : Int)
  | float (q : ℚ)
  | str (s : String)
  deriving DecidableEq, Repr

/-- `isinstance(v, (int, float))` — note Python `bool` is a subclass of
`int`, so booleans pass this test. -/
def pyIsNumeric : PyVal → Bool
  | PyVal.bool _ => true
  | PyVal.int _ => true
  | PyVal.float _ => true
  | _ => false

/-- Numeric value of a Python number (`True == 1`, `False == 0`). -/
def pyToRat : PyVal → ℚ
  | PyVal.bool b => if b then 1 else 0
  | PyVal.int n => (n : ℚ)
  | PyVal.float q => q
  | _ => 0

/-- A document of the `readings` container. `sensor_id` is `Option` because
`item.get("sensor_id")` may be absent. -/
structure Reading where
  id : String
  sensor_id : Option String
  temperature : PyVal
  timestamp : String
  deriving DecidableEq, Repr

/-- Projection returned by the aggregation query
`SELECT TOP 10 c.timestamp, c.temperature ...`. -/
structure Item where
  timestamp : String
  temperature : PyVal
  deriving DecidableEq, Repr

/-- A summary document written to the `summaries` container. -/
structure Summary where
  id : String
  timestamp : String
  sensor_id : String
  max_temp : ℚ
  min_temp : ℚ
  avg_temp : ℚ
  deriving DecidableEq, Repr

/-- The lease (cursor) document. `continuation` is the opaque position
token, `last_run_utc` the timestamp of the last completed cycle. -/
structure Lease where
  continuation : Option Nat
  last_run_utc : Option String
  deriving DecidableEq, Repr

/-! ### Timestamp formatting (`utc_now_str`) -/

/-- A UTC wall-clock instant as held by `datetime.now(timezone.utc)`. -/
structure UtcTime where
  year : Nat
  month : Nat
  day : Nat
  hour : Nat
  minute : Nat
  second : Nat
  microsecond : Nat
  deriving DecidableEq, Repr

/-- Zero-pad a number to two digits, as `datetime.isoformat` does. -/
def pad2 (n : Nat) : String :=
  if n < 10 then "0" ++ toString n else toString n

/-- Zero-pad a year to four digits. -/
def pad4 (n : Nat) : String :=
  if n < 10 then "000" ++ toString n
  else if n < 100 then "00" ++ toString n
  else if n < 1000 then "0" ++ toString n
  else toString n

/-- `datetime.isoformat()` for a timezone-aware UTC instant whose
microsecond field is zero: `YYYY-MM-DDTHH:MM:SS+00:00`. -/
def isoformatUtc (t : UtcTime) : String :=
  pad4 t.year ++ "-" ++ pad2 t.month ++ "-" ++ pad2 t.day ++ "T" ++
    pad2 t.hour ++ ":" ++ pad2 t.minute ++ ":" ++ pad2 t.second ++ "+00:00"

/-- Python `s.replace("+00:00", "Z")` on the character list of `s`:
every (leftmost, non-overlapping) occurrence of `+00:00` becomes `Z`. -/
def replaceOffsetZ : List Char → List Char
  | '+' :: '0' :: '0' :: ':' :: '0' :: '0' :: rest => 'Z' :: replaceOffsetZ rest
  | c :: rest => c :: replaceOffsetZ rest
  | [] => []

/-- `utc_now_str`: drop microseconds, format ISO-8601, replace the
`+00:00` offset with `Z`. -/
def utc_now_str (t : UtcTime) : String :=
  String.mk (replaceOffsetZ (isoformatUtc { t with microsecond := 0 }).data)

/-! ### Rounding (`round(x, 2)`) -/

/-- Round a rational to the nearest integer, ties to even (Python's
`round` semantics). -/
def roundHalfEven (x : ℚ) : ℤ :=
  let f : ℤ := ⌊x⌋
  let r : ℚ := x - (f : ℚ)
  if r < 1 / 2 then f
  else if 1 / 2 < r then f + 1
  else if f % 2 = 0 then f else f + 1

/-- `round(x, 2)`: round to two decimal digits. -/
def roundTo2 (x : ℚ) : ℚ :=
  (roundHalfEven (x * 100) : ℚ) / 100

/-! ### The change feed (`read_changes`) -/

/-- Response headers of a change-feed page; the continuation token is
carried in `etag` or `x-ms-continuation`. -/
structure Headers where
  etag : Option Nat
  xMsContinuation : Option Nat
  deriving DecidableEq, Repr

/-- Where a change-feed pull starts: from a continuation token, or from
`start_time = "Now"`. -/
inductive ReadSpec where
  | fromToken (p : Nat)
  | fromNow
  deriving DecidableEq, Repr

/-- The readings container seen as an append-only log; a position is an
index into `log`, and "now" is the current end of the log. -/
structure Feed where
  log : List Reading
  deriving Repr

/-- `query_items_change_feed` with `max_item_count = cap`: returns the
records after the start position (at most `cap` of them) and response
headers carrying the new position as the `etag` token. Starting from
`"Now"` means starting at the current end of the log, so no historical
backlog is eligible. -/
def feedQuery (feed : Feed) (spec : ReadSpec) (cap : Nat) :
    List Reading × Headers :=
  let startPos := match spec with
    | ReadSpec.fromToken p => p
    | ReadSpec.fromNow => feed.log.length
  let items := (feed.log.drop startPos).take cap
  (items, { etag := some (startPos + items.length), xMsContinuation := none })

/-- `read_changes`: pull one change-feed page. The `latest_token` cell
starts at the incoming continuation and the response hook overwrites it
with `etag or x-ms-continuation` when that is truthy, so the returned
token is the hook's token if one arrived and the incoming continuation
otherwise. -/
def read_changes (feed : Feed) (continuation : Option Nat) :
    List Reading × Option Nat :=
  let spec := match continuation with
    | some p => ReadSpec.fromToken p
    | none => ReadSpec.fromNow
  let (items, headers) := feedQuery feed spec 1000
  let hookToken := match headers.etag with
    | some t => some t
    | none => headers.xMsContinuation
  let latest := match hookToken with
    | some t => some t
    | none => continuation
  (items, latest)

/-! ### The aggregator (`summarise_sensor`) -/

/-- `ORDER BY c.timestamp DESC`: insertion sort of query items by
timestamp, descending. -/
def insertByTsDesc (r : Reading) : List Reading → List Reading
  | [] => [r]
  | x :: xs =>
      if x.timestamp ≤ r.timestamp then r :: x :: xs
      else x :: insertByTsDesc r xs

/-- Sort readings by timestamp descending. -/
def sortByTsDesc : List Reading → List Reading
  | [] => []
  | r :: rs => insertByTsDesc r (sortByTsDesc rs)

/-- The `SELECT TOP 10 c.timestamp, c.temperature ... WHERE c.sensor_id =
@sid ORDER BY c.timestamp DESC` query against the readings container. -/
def topWindow (store : List Reading) (sid : String) : List Item :=
  ((sortByTsDesc (store.filter fun r => r.sensor_id = some sid)).take 10).map
    fun r => { timestamp := r.timestamp, temperature := r.temperature }

/-- The filtered temperature list
`[it.get("temperature") for it in items if isinstance(..., (int, float))]`,
taken to numeric values. -/
def validTemps (items : List Item) : List ℚ :=
  (items.filter fun it => pyIsNumeric it.temperature).map
    fun it => pyToRat it.temperature

/-- The pure core of `summarise_sensor`: given the query result `items`,
either `none` (no data / no numeric temperature) or the summary built from
`max`, `min` and the 2-digit-rounded mean of the numeric temperatures,
stamped with the fresh id `uuid` and the current time string `now`. -/
def summariseCore (sid uuid now : String) (items : List Item) :
    Option Summary :=
  if items.isEmpty then none
  else
    match validTemps items with
    | [] => none
    | t :: ts =>
        some { id := uuid
               timestamp := now
               sensor_id := sid
               max_temp := ts.foldl max t
               min_temp := ts.foldl min t
               avg_temp := roundTo2 ((t :: ts).sum / (t :: ts).length) }

/-- `summarise_sensor`: run the aggregation for one sensor against the
readings `store` and the current `summaries` container contents. `fail`
says whether the call raises (query or upsert failure); on success the
produced summary, if any, is upserted into the summaries container. -/
def summarise_sensor (store : List Reading) (sid uuid now : String)
    (fail : Bool) (summaries : List Summary) :
    Except Unit (Option Summary × List Summary) :=
  if fail then Except.error ()
  else
    match summariseCore sid uuid now (topWindow store sid) with
    | none => Except.ok (none, summaries)
    | some out => Except.ok (some out, summaries ++ [out])

/-! ### The lease store (`load_lease` / `save_lease`) -/

/-- The leases container plus the availability of its read and write
paths. `stored` is the singleton lease record, if present. -/
structure LeaseContainerState where
  stored : Option Lease
  readOk : Bool
  writeOk : Bool
  deriving DecidableEq, Repr

/-- `read_item(item=LEASE_ID, ...)`: raises when the service is
unavailable or when no lease record exists. -/
def leaseReadItem (st : LeaseContainerState) : Except Unit Lease :=
  if st.readOk then
    match st.stored with
    | some l => Except.ok l
    | none => Except.error ()
  else Except.error ()

/-- `upsert_item`: raises when the write path is unavailable. -/
def leaseUpsertItem (st : LeaseContainerState) (l : Lease) :
    Except Unit LeaseContainerState :=
  if st.writeOk then Except.ok { st with stored := some l }
  else Except.error ()

/-- The fresh lease `{"id": LEASE_ID, "continuation": None,
"last_run_utc": None}` created by `load_lease`. -/
def freshLease : Lease :=
  { continuation := none, last_run_utc := none }

/-- `load_lease`: try to read the singleton lease; on any exception
(not-found or unavailable alike) create a fresh lease, upsert it and
return it. An error escapes only if that upsert itself raises. -/
def load_lease (st : LeaseContainerState) :
    Except Unit (Lease × LeaseContainerState) :=
  match leaseReadItem st with
  | Except.ok l => Except.ok (l, st)
  | Except.error _ =>
      match leaseUpsertItem st freshLease with
      | Except.ok st' => Except.ok (freshLease, st')
      | Except.error e => Except.error e

/-! ### The driver loop (`main`, one cycle) -/

/-- The per-cycle environment: the readings log, a fresh-uuid supply per
sensor, the current time string, and the per-key failure oracle. -/
structure Env where
  feed : Feed
  uuid : String → String
  now : String
  failKeys : String → Bool

/-- Mutable state the driver touches: the summaries container and the
lease record as persisted in the leases container. -/
structure CycleState where
  summaries : List Summary
  leaseStore : Option Lease
  deriving Repr

/-- Python truthiness of `item.get("sensor_id")`: present and nonempty. -/
def truthyStr : Option String → Bool
  | some s => s ≠ ""
  | none => false

/-- `set(item.get("sensor_id") for item in batch if item.get("sensor_id"))`:
the distinct sensor ids of the batch, missing/empty excluded. -/
def distinctKeys (batch : List Reading) : List String :=
  (((batch.filter fun it => truthyStr it.sensor_id).filterMap
    fun it => it.sensor_id).dedup)

/-- The `for sid in sensors_in_batch` loop: aggregate each key in turn;
an exception from `summarise_sensor` propagates (there is no try/except
around the loop body in `main`). -/
def processKeys (env : Env) (keys : List String) (summaries : List Summary) :
    Except Unit (List Summary) :=
  match keys with
  | [] => Except.ok summaries
  | sid :: rest =>
      match summarise_sensor env.feed.log sid (env.uuid sid) env.now
          (env.failKeys sid) summaries with
      | Except.error e => Except.error e
      | Except.ok (_, summaries') => processKeys env rest summaries'

/-- One iteration of `main`'s `while True` loop: pull a batch, aggregate
every distinct sensor of the batch, then set the lease's continuation to
the new token and its `last_run_utc` to now and save it. An exception
anywhere before the save propagates, leaving the stores untouched. -/
def runCycle (env : Env) (st : CycleState) (lease : Lease) :
    Except Unit (CycleState × Lease) :=
  let rc := read_changes env.feed lease.continuation
  let batch := rc.1
  let newTok := rc.2
  let keys := if batch.isEmpty then [] else distinctKeys batch
  match processKeys env keys st.summaries with
  | Except.error e => Except.error e
  | Except.ok summaries' =>
      let lease' : Lease := { continuation := newTok, last_run_utc := some env.now }
      Except.ok ({ summaries := summaries', leaseStore := some lease' }, lease')

end Summarizer

/-! ## Helper lemmas -/

namespace Summarizer

theorem foldl_max_mem (ts : List ℚ) : ∀ t : ℚ, ts.foldl max t ∈ t :: ts := by
  induction ts with
  | nil => intro t; simp
  | cons a l ih =>
      intro t
      simp only [List.foldl_cons]
      rcases List.mem_cons.mp (ih (max t a)) with h1 | h2
      · rw [h1]
        rcases max_choice t a with hc | hc
        · rw [hc]; exact List.mem_cons_self _ _
        · rw [hc]; exact List.mem_cons.mpr (Or.inr (List.mem_cons_self _ _))
      · exact List.mem_cons.mpr (Or.inr (List.mem_cons.mpr (Or.inr h2)))

theorem le_foldl_max_init (ts : List ℚ) : ∀ t : ℚ, t ≤ ts.foldl max t := by
  induction ts with
  | nil => intro t; simp
  | cons a l ih => intro t; exact le_trans (le_max_left t a) (ih (max t a))

theorem le_foldl_max_of_mem (ts : List ℚ) :
    ∀ t x : ℚ, x ∈ t :: ts → x ≤ ts.foldl max t := by
  induction ts with
  | nil =>
      intro t x hx
      simp at hx
      simp [hx]
  | cons a l ih =>
      intro t x hx
      simp only [List.foldl_cons]
      rcases List.mem_cons.mp hx with h | h
      · subst h; exact le_trans (le_max_left x a) (le_foldl_max_init l (max x a))
      · rcases List.mem_cons.mp h with h' | h'
        · subst h'; exact le_trans (le_max_right t x) (le_foldl_max_init l (max t x))
        · exact ih (max t a) x (List.mem_cons.mpr (Or.inr h'))

theorem foldl_min_mem (ts : List ℚ) : ∀ t : ℚ, ts.foldl min t ∈ t :: ts := by
  induction ts with
  | nil => intro t; simp
  | cons a l ih =>
      intro t
      simp only [List.foldl_cons]
      rcases List.mem_cons.mp (ih (min t a)) with h1 | h2
      · rw [h1]
        rcases min_choice t a with hc | hc
        · rw [hc]; exact List.mem_cons_self _ _
        · rw [hc]; exact List.mem_cons.mpr (Or.inr (List.mem_cons_self _ _))
      · exact List.mem_cons.mpr (Or.inr (List.mem_cons.mpr (Or.inr h2)))

theorem foldl_min_init_le (ts : List ℚ) : ∀ t : ℚ, ts.foldl min t ≤ t := by
  induction ts with
  | nil => intro t; simp
  | cons a l ih => intro t; exact le_trans (ih (min t a)) (min_le_left t a)

theorem foldl_min_le_of_mem (ts : List ℚ) :
    ∀ t x : ℚ, x ∈ t :: ts → ts.foldl min t ≤ x := by
  induction ts with
  | nil =>
      intro t x hx
      simp at hx
      simp [hx]
  | cons a l ih =>
      intro t x hx
      simp only [List.foldl_cons]
      rcases List.mem_cons.mp hx with h | h
      · subst h; exact le_trans (foldl_min_init_le l (min x a)) (min_le_left x a)
      · rcases List.mem_cons.mp h with h' | h'
        · subst h'; exact le_trans (foldl_min_init_le l (min t x)) (min_le_right t x)
        · exact ih (min t a) x (List.mem_cons.mpr (Or.inr h'))

theorem summariseCore_eq_none_iff (sid uuid now : String) (items : List Item) :
    summariseCore sid uuid now items = none ↔ validTemps items = [] := by
  cases items with
  | nil => simp [summariseCore, validTemps]
  | cons a l =>
      cases h : validTemps (a :: l) with
      | nil => simp [summariseCore, h]
      | cons t ts => simp [summariseCore, h]

theorem summariseCore_eq_some (sid uuid now : String) (items : List Item)
    (out : Summary) (h : summariseCore sid uuid now items = some out) :
    ∃ t ts, validTemps items = t :: ts ∧
      out = { id := uuid, timestamp := now, sensor_id := sid,
              max_temp := ts.foldl max t, min_temp := ts.foldl min t,
              avg_temp := roundTo2 ((t :: ts).sum / (t :: ts).length) } := by
  cases items with
  | nil => simp [summariseCore] at h
  | cons a l =>
      cases hv : validTemps (a :: l) with
      | nil => simp [summariseCore, hv] at h
      | cons t ts =>
          refine ⟨t, ts, rfl, ?_⟩
          simp [summariseCore, hv] at h
          rw [← h]
          simp

theorem processKeys_error (env : Env) :
    ∀ (keys : List String) (summaries : List Summary) (sid : String),
    sid ∈ keys → env.failKeys sid = true →
    processKeys env keys summaries = Except.error () := by
  intro keys
  induction keys with
  | nil =>
      intro summaries sid h
      simp at h
  | cons k rest ih =>
      intro summaries sid hmem hfail
      rcases List.mem_cons.mp hmem with h | h
      · subst h
        simp [processKeys, summarise_sensor, hfail]
      · cases hk : env.failKeys k with
        | true => simp [processKeys, summarise_sensor, hk]
        | false =>
            cases hsc : summariseCore k (env.uuid k) env.now
                (topWindow env.feed.log k) with
            | none =>
                simp [processKeys, summarise_sensor, hk, hsc]
                exact ih summaries sid h hfail
            | some out =>
                simp [processKeys, summarise_sensor, hk, hsc]
                exact ih (summaries ++ [out]) sid h hfail

/-! ## The claims -/

/-- C2: for every key, the aggregation returns absent if and only if the
top-10-by-recency window for that key contains zero numerically-valid
temperature readings, and in that case `summarise_sensor` leaves the
summaries container unchanged (no record is written). -/
theorem summarise_absent_iff_no_valid_temps :
    ∀ (store : List Reading) (sid uuid now : String) (summaries : List Summary),
    (summariseCore sid uuid now (topWindow store sid) = none ↔
      validTemps (topWindow store sid) = []) ∧
    (validTemps (topWindow store sid) = [] →
      summarise_sensor store sid uuid now false summaries =
        Except.ok (none, summaries)) := by
  intro store sid uuid now summaries
  refine ⟨summariseCore_eq_none_iff _ _ _ _, ?_⟩
  intro hempty
  have h := (summariseCore_eq_none_iff sid uuid now (topWindow store sid)).mpr hempty
  simp [summarise_sensor, h]

/-- C6: for every batch, the extracted key set has no duplicates and holds
exactly the nonempty sensor ids occurring in the batch; records with a
missing or empty sensor_id are excluded without error. -/
theorem distinct_keys_spec :
    ∀ (batch : List Reading),
    (distinctKeys batch).Nodup ∧
    ∀ s : String, s ∈ distinctKeys batch ↔
      s ≠ "" ∧ ∃ r ∈ batch, r.sensor_id = some s := by
  intro batch
  refine ⟨List.nodup_dedup _, ?_⟩
  intro s
  simp only [distinctKeys, List.mem_dedup, List.mem_filterMap, List.mem_filter]
  constructor
  · rintro ⟨r, ⟨hrb, htr⟩, hsid⟩
    rw [hsid] at htr
    simp [truthyStr] at htr
    exact ⟨htr, r, hrb, hsid⟩
  · rintro ⟨hs, r, hrb, hsid⟩
    exact ⟨r, ⟨hrb, by simp [truthyStr, hsid, hs]⟩, hsid⟩

/-- C8: with no stored continuation the pull starts at "now", so the batch
holds none of the log's existing records (one-time bootstrap) and the
returned token marks the current end of the log; with a continuation
present the pull resumes exactly at that position and returns the records
from there, capped at 1000 per call. -/
theorem read_changes_bootstrap_and_resume :
    ∀ (feed : Feed),
    ((read_changes feed none).1 = [] ∧
      (read_changes feed none).2 = some feed.log.length) ∧
    (∀ p : Nat,
      (read_changes feed (some p)).1 = (feed.log.drop p).take 1000 ∧
      (read_changes feed (some p)).2 =
        some (p + ((feed.log.drop p).take 1000).length) ∧
      (read_changes feed (some p)).1.length ≤ 1000) := by
  intro feed
  constructor
  · constructor
    · simp [read_changes, feedQuery]
    · simp [read_changes, feedQuery]
  · intro p
    refine ⟨rfl, rfl, ?_⟩
    calc (read_changes feed (some p)).1.length
        = ((feed.log.drop p).take 1000).length := rfl
      _ ≤ 1000 := List.length_take_le _ _

/-- C4: on every successfully completed cycle the persisted lease carries
exactly the continuation returned by the batch read (captured and saved
even when the batch is empty, since the save is unconditional), and that
token never regresses: a present token at cycle start yields a present
token at a position ≥ the start position. -/
theorem cursor_never_regresses :
    ∀ (env : Env) (st : CycleState) (lease : Lease),
    (∀ (st' : CycleState) (l' : Lease),
      runCycle env st lease = Except.ok (st', l') →
      l'.continuation = (read_changes env.feed lease.continuation).2 ∧
      l'.last_run_utc = some env.now ∧
      st'.leaseStore = some l') ∧
    (∀ p : Nat, lease.continuation = some p →
      ∃ q : Nat, (read_changes env.feed lease.continuation).2 = some q ∧ p ≤ q) := by
  intro env st lease
  constructor
  · intro st' l' h
    simp only [runCycle] at h
    cases hpk : processKeys env
        (if ((read_changes env.feed lease.continuation).1).isEmpty then []
         else distinctKeys (read_changes env.feed lease.continuation).1)
        st.summaries with
    | error e =>
        rw [hpk] at h
        simp at h
    | ok s =>
        rw [hpk] at h
        simp at h
        obtain ⟨hst, hl⟩ := h
        subst hst
        subst hl
        exact ⟨rfl, rfl, rfl⟩
  · intro p hp
    rw [hp]
    exact ⟨p + ((env.feed.log.drop p).take 1000).length, rfl, Nat.le_add_right _ _⟩

/-- C7: a cycle whose batch is empty writes no summary (the summaries
container is unchanged), yet still saves the lease with the batch read's
returned continuation and a fresh `last_run_utc`. -/
theorem empty_batch_frame (env : Env) (st : CycleState) (lease : Lease)
    (hempty : (read_changes env.feed lease.continuation).1 = []) :
    runCycle env st lease = Except.ok
      ({ summaries := st.summaries,
         leaseStore := some
           { continuation := (read_changes env.feed lease.continuation).2,
             last_run_utc := some env.now } },
       { continuation := (read_changes env.feed lease.continuation).2,
         last_run_utc := some env.now }) := by
  simp only [runCycle, hempty]
  simp [processKeys]

theorem empty_batch_frame_witness :
    runCycle
      { feed := { log := [] }, uuid := fun _ => "u",
        now := "2024-01-01T00:00:00Z", failKeys := fun _ => false }
      { summaries := [], leaseStore := none }
      { continuation := none, last_run_utc := none } =
    Except.ok
      ({ summaries := [],
         leaseStore := some
           { continuation := some 0, last_run_utc := some "2024-01-01T00:00:00Z" } },
       { continuation := some 0, last_run_utc := some "2024-01-01T00:00:00Z" }) :=
  empty_batch_frame _ _ _ rfl

/-- C5: for every non-empty filtered window the emitted summary carries the
maximum and minimum of the filtered temperatures, the mean rounded to two
decimal digits (round-half-to-even), the freshly generated id and the
current clock reading formatted by `utc_now_str`; `utc_now_str` renders at
second precision with a `Z` suffix and no fractional seconds; the window
[10.0, 20.0, 30.0] yields max=30.0, min=10.0, avg=20.00. -/
theorem summary_stats_correct :
    (∀ (sid uuid : String) (tNow : UtcTime) (items : List Item) (t : ℚ) (ts : List ℚ),
      validTemps items = t :: ts →
      ∃ out, summariseCore sid uuid (utc_now_str tNow) items = some out ∧
        out.id = uuid ∧
        out.timestamp = utc_now_str tNow ∧
        out.max_temp ∈ validTemps items ∧
        (∀ x ∈ validTemps items, x ≤ out.max_temp) ∧
        out.min_temp ∈ validTemps items ∧
        (∀ x ∈ validTemps items, out.min_temp ≤ x) ∧
        out.avg_temp =
          roundTo2 ((validTemps items).sum / (validTemps items).length)) ∧
    utc_now_str { year := 2024, month := 1, day := 1, hour := 12, minute := 0,
                  second := 0, microsecond := 500000 } = "2024-01-01T12:00:00Z" ∧
    (∃ out, summariseCore "s1" "u1" "2024-01-01T12:00:00Z"
        [{ timestamp := "t1", temperature := PyVal.float 10 },
         { timestamp := "t2", temperature := PyVal.float 20 },
         { timestamp := "t3", temperature := PyVal.float 30 }] = some out ∧
      out.max_temp = 30 ∧ out.min_temp = 10 ∧ out.avg_temp = 20) := by
  refine ⟨?_, by decide, ?_⟩
  · intro sid uuid tNow items t ts hv
    have hne : summariseCore sid uuid (utc_now_str tNow) items ≠ none := by
      rw [Ne, summariseCore_eq_none_iff, hv]
      simp
    obtain ⟨out, hout⟩ := Option.ne_none_iff_exists'.mp hne
    obtain ⟨t', ts', hv', hrec⟩ :=
      summariseCore_eq_some sid uuid (utc_now_str tNow) items out hout
    rw [hv] at hv'
    injection hv' with ht hts
    subst ht
    subst hts
    subst hrec
    refine ⟨_, hout, rfl, rfl, ?_, ?_, ?_, ?_, ?_⟩
    · rw [hv]; exact foldl_max_mem ts t
    · intro x hx; rw [hv] at hx; exact le_foldl_max_of_mem ts t x hx
    · rw [hv]; exact foldl_min_mem ts t
    · intro x hx; rw [hv] at hx; exact foldl_min_le_of_mem ts t x hx
    · rw [hv]
  · refine ⟨{ id := "u1", timestamp := "2024-01-01T12:00:00Z", sensor_id := "s1",
              max_temp := 30, min_temp := 10, avg_temp := 20 }, ?_, rfl, rfl, rfl⟩
    simp [summariseCore, validTemps, pyIsNumeric, pyToRat]
    norm_num [roundTo2, roundHalfEven]

/-- C9: the numeric-validity filter accepts Python booleans (`bool` is a
subclass of `int`): a window containing a reading whose temperature is
`True` or `False` includes that reading in the aggregate with numeric
value 1 or 0, and the aggregation does not return absent. -/
theorem bool_temperature_included (sid uuid now : String) (items : List Item)
    (it : Item) (b : Bool) (hmem : it ∈ items)
    (htemp : it.temperature = PyVal.bool b) :
    (if b then (1 : ℚ) else 0) ∈ validTemps items ∧
    summariseCore sid uuid now items ≠ none := by
  have hval : (if b then (1 : ℚ) else 0) ∈ validTemps items := by
    have hf : it ∈ items.filter (fun i => pyIsNumeric i.temperature) := by
      rw [List.mem_filter]
      exact ⟨hmem, by simp [htemp, pyIsNumeric]⟩
    have h2 := List.mem_map_of_mem (fun i => pyToRat i.temperature) hf
    have h3 : pyToRat it.temperature = (if b then (1 : ℚ) else 0) := by
      rw [htemp]
      rfl
    rw [← h3]
    exact h2
  refine ⟨hval, ?_⟩
  rw [Ne, summariseCore_eq_none_iff]
  intro hnil
  rw [hnil] at hval
  simp at hval

theorem bool_temperature_included_witness :
    (if true then (1 : ℚ) else 0) ∈
      validTemps [{ timestamp := "t", temperature := PyVal.bool true }] ∧
    summariseCore "s" "u" "n"
      [{ timestamp := "t", temperature := PyVal.bool true }] ≠ none :=
  bool_temperature_included "s" "u" "n" _ _ true
    (List.mem_singleton_self _) rfl

/-- C10: every summary the aggregation produces satisfies
min_temp ≤ max_temp, and both bounds are attained values of the filtered
window; the rounded avg_temp enjoys no such containment (a window exists
whose summary's avg_temp equals no reading's temperature). -/
theorem min_le_max_attained :
    (∀ (sid uuid now : String) (items : List Item) (out : Summary),
      summariseCore sid uuid now items = some out →
      out.min_temp ≤ out.max_temp ∧
      out.max_temp ∈ validTemps items ∧
      out.min_temp ∈ validTemps items) ∧
    (∃ (sid uuid now : String) (items : List Item) (out : Summary),
      summariseCore sid uuid now items = some out ∧
      out.avg_temp ∉ validTemps items) := by
  constructor
  · intro sid uuid now items out h
    obtain ⟨t, ts, hv, hrec⟩ := summariseCore_eq_some sid uuid now items out h
    subst hrec
    refine ⟨?_, ?_, ?_⟩
    · exact le_trans (foldl_min_init_le ts t) (le_foldl_max_init ts t)
    · rw [hv]; exact foldl_max_mem ts t
    · rw [hv]; exact foldl_min_mem ts t
  · refine ⟨"s", "u", "n",
      [{ timestamp := "a", temperature := PyVal.float 1 },
       { timestamp := "b", temperature := PyVal.float 2 }],
      { id := "u", timestamp := "n", sensor_id := "s",
        max_temp := 2, min_temp := 1, avg_temp := 3 / 2 }, ?_, ?_⟩
    · simp [summariseCore, validTemps, pyIsNumeric, pyToRat]
      norm_num [roundTo2, roundHalfEven]
    · simp [validTemps, pyIsNumeric, pyToRat]
      norm_num

/-- C1 counterexample: a cycle whose batch read succeeded (one record, one
key) and whose single key's aggregation/sink write raises does NOT log,
skip the key and save the cursor — `main` has no try/except around the
per-key loop, so the exception propagates and the cycle aborts with no
lease save at all. -/
theorem cursor_not_saved_on_key_failure :
    runCycle
      { feed := { log := [{ id := "r1", sensor_id := some "s1",
                            temperature := PyVal.float 20, timestamp := "t1" }] },
        uuid := fun _ => "u", now := "n",
        failKeys := fun s => s == "s1" }
      { summaries := [], leaseStore := none }
      { continuation := some 0, last_run_utc := none } =
    Except.error () := rfl

/-- C1 (amended): if the aggregation or summary-sink write for any key of
the batch fails, the exception propagates out of the cycle: no remaining
key is processed and the lease (cursor) is not saved — the cycle returns
an error instead of completing. -/
theorem key_failure_aborts_cycle (env : Env) (st : CycleState) (lease : Lease)
    (sid : String)
    (hmem : sid ∈ distinctKeys (read_changes env.feed lease.continuation).1)
    (hfail : env.failKeys sid = true) :
    runCycle env st lease = Except.error () := by
  have hne : ((read_changes env.feed lease.continuation).1).isEmpty = false := by
    cases hb : (read_changes env.feed lease.continuation).1 with
    | nil =>
        rw [hb] at hmem
        simp [distinctKeys] at hmem
    | cons a l => simp
  have hpk := processKeys_error env
    (distinctKeys (read_changes env.feed lease.continuation).1)
    st.summaries sid hmem hfail
  simp [runCycle, hne, hpk]

theorem key_failure_aborts_cycle_witness :
    runCycle
      { feed := { log := [{ id := "r1", sensor_id := some "s1",
                            temperature := PyVal.float 20, timestamp := "t1" },
                          { id := "r2", sensor_id := some "s2",
                            temperature := PyVal.float 21, timestamp := "t2" }] },
        uuid := fun _ => "u", now := "n",
        failKeys := fun s => s == "s2" }
      { summaries := [], leaseStore := none }
      { continuation := some 0, last_run_utc := none } =
    Except.error () :=
  key_failure_aborts_cycle _ _ _ "s2" (by decide) rfl

/-- C3 counterexample: a lease container whose read path is unavailable
but whose write path works, while a cursor record (continuation present)
exists: `load_lease` catches the read exception, fabricates a fresh
cursor, overwrites the stored record with it and proceeds — neither is
unavailability fatal, nor is the fresh cursor created only when no record
exists. -/
theorem load_lease_fabricates_despite_existing_cursor :
    load_lease
      { stored := some { continuation := some 5,
                         last_run_utc := some "2024-01-01T00:00:00Z" },
        readOk := false, writeOk := true } =
    Except.ok (freshLease,
      { stored := some freshLease, readOk := false, writeOk := true }) := rfl

/-- C3 (amended): `load_lease` returns the stored singleton cursor when
the read succeeds; on ANY read failure — record absent or store
unavailable alike — it creates and persists a fresh cursor (continuation
absent, last_run absent), overwriting any existing record, and proceeds
with it; startup is fatal only when that fresh-cursor upsert also
fails. -/
theorem load_lease_characterization :
    ∀ (st : LeaseContainerState),
    (∀ l : Lease, st.readOk = true → st.stored = some l →
      load_lease st = Except.ok (l, st)) ∧
    ((st.readOk = false ∨ st.stored = none) → st.writeOk = true →
      load_lease st =
        Except.ok (freshLease, { st with stored := some freshLease })) ∧
    ((st.readOk = false ∨ st.stored = none) → st.writeOk = false →
      load_lease st = Except.error ()) := by
  intro st
  have hread : (st.readOk = false ∨ st.stored = none) →
      leaseReadItem st = Except.error () := by
    intro hfail
    rcases hfail with h | h
    · simp [leaseReadItem, h]
    · cases hr : st.readOk <;> simp [leaseReadItem, h, hr]
  refine ⟨?_, ?_, ?_⟩
  · intro l hr hs
    simp [load_lease, leaseReadItem, hr, hs]
  · intro hfail hw
    simp [load_lease, hread hfail, leaseUpsertItem, hw]
  · intro hfail hw
    simp [load_lease, hread hfail, leaseUpsertItem, hw]
